import Mathlib

/-!
Verification of the OpsForge repository's client layer.

The TypeScript call paths under `src/webApp/ops-forge/actions/LLMS/`
(`llmActions.ts`, `pipeline.ts`) are embedded directly.  The resilient
client layer described by the specification (RateLimiter, RetryPolicy,
Manager) has no implementation under `src/` — only its README is present —
so those components are modelled from the specification's words, each such
definition carrying a doc comment that says so.
-/

namespace OpsForge

/-- Role of a chat message, from the `ChatMessage` type
(`llmActions.ts` lines 6-9): `"system" | "user" | "assistant"`. -/
inductive Role where
  | system
  | user
  | assistant
  deriving DecidableEq

/-- `ChatMessage` (`llmActions.ts` lines 6-9): a role/content pair. -/
structure ChatMessage where
  role : Role
  content : String
  deriving DecidableEq

/-- Shape of `message` inside a Groq completion choice; `content` may be
`null`/absent, which the code guards with `?? ""`. -/
structure GroqMessage where
  content : Option String
  deriving DecidableEq

/-- One element of `resp.choices`; `message` may be absent (the code uses
`c.message?.content`). -/
structure GroqChoice where
  message : Option GroqMessage
  deriving DecidableEq

/-- The Groq chat-completion response shape used by `completeGroqChat`:
`choices` may itself be absent (the code uses `resp.choices?.map ... ?? ""`). -/
structure GroqResponse where
  choices : Option (List GroqChoice)
  deriving DecidableEq

/-- `c.message?.content ?? ""` from `completeGroqChat`
(`llmActions.ts` line 60): a missing message or a null content
contributes the empty string. -/
def choiceContent (c : GroqChoice) : String :=
  (c.message.bind (fun m => m.content)).getD ""

/-- `resp.choices?.map ((c) => c.message?.content ?? "").join("") ?? ""`
(`llmActions.ts` lines 59-60): concatenate all choice contents; an absent
`choices` yields the empty string. -/
def extractContent (r : GroqResponse) : String :=
  match r.choices with
  | none => ""
  | some cs => String.join (cs.map choiceContent)

/-- Result shape `{ content }` returned by `completeGroqChat`. -/
structure ChatResult where
  content : String
  deriving DecidableEq

/-- Error message built in the catch branch of `completeGroqChat`
(`llmActions.ts` lines 63-68): `Groq completion failed` with the cause's
message appended when it is present and non-empty (JS truthiness). -/
def groqErrMessage (e : Option String) : String :=
  "Groq completion failed" ++
    match e with
    | some m => if m = "" then "" else ": " ++ m
    | none => ""

/-- `completeGroqChat` (`llmActions.ts` lines 44-69): one
`groq.chat.completions.create` call; on success the concatenated choice
contents are returned as `{ content }`, on failure the error is wrapped in
a fresh generic `Error`.  The network outcome is the argument. -/
def completeGroqChat (resp : Except (Option String) GroqResponse) :
    Except String ChatResult :=
  match resp with
  | .ok r => .ok ⟨extractContent r⟩
  | .error e => .error (groqErrMessage e)

/-- `completeGroqChat` viewed with its network-attempt count: the body
contains a single `await groq.chat.completions.create(...)` (line 49) and
no retry loop, so every execution performs exactly one underlying network
call; the operation is consulted only at attempt index 0. -/
def completeGroqChatAttemptRun
    (op : Nat → Except (Option String) GroqResponse) :
    Except String ChatResult × Nat :=
  (completeGroqChat (op 0), 1)

/-- Result shape of `invokeLambda` (`pipeline.ts` lines 29-37): either
`{ success: true, message }` or `{ success: false, error }`. -/
structure InvokeResult where
  success : Bool
  message : Option String
  error : Option String
  deriving DecidableEq

/-- `invokeLambda` (`pipeline.ts` lines 5-39): builds the payload, sends the
`InvokeCommand`, and converts any failure of the send into a
`{ success: false, error }` value inside its catch branch; it never lets
the exception escape.  The outcome of `lambdaClient.send` is the second
argument. -/
def invokeLambda (_query : String) (sendOutcome : Except String Unit) :
    InvokeResult :=
  match sendOutcome with
  | .ok _ => ⟨true, some "Main Processing started", none⟩
  | .error _ => ⟨false, none, some "Failed to start main processing"⟩

/-- JSON values, the image of `JSON.parse` on well-formed input. -/
inductive Json where
  | null
  | bool (b : Bool)
  | num (n : Int)
  | str (s : String)
  | arr (elems : List Json)
  | obj (fields : List (String × Json))

/-- Outcome of `JSON.parse(raw)` as used in `completeStructuredGroqChat`
(`llmActions.ts` lines 102-108): either the raw string parses to a JSON
value, or `JSON.parse` throws. -/
inductive RawContent where
  | wellFormed (raw : String) (j : Json)
  | malformed (raw : String)

/-- Return shape `{ raw, object }` of `completeStructuredGroqChat`. -/
structure StructuredResult where
  raw : String
  object : Json

/-- Response handling of `completeStructuredGroqChat`
(`llmActions.ts` lines 101-111): `raw` is
`resp.choices?.[0]?.message?.content ?? ""` (an absent content defaults to
the empty string, which does not parse); `JSON.parse(raw)` throwing is
turned into an error, and otherwise `{ raw, object: parsed }` is returned.
No schema validation of the parsed object occurs anywhere in the body. -/
def completeStructuredGroqChat (content : Option RawContent) :
    Except String StructuredResult :=
  match content.getD (.malformed "") with
  | .wellFormed raw j => .ok ⟨raw, j⟩
  | .malformed raw =>
      .error ("Model did not return valid JSON. Raw output: " ++ raw)

/-- `completeStructuredGroqChat` with its network-attempt count: the body
contains a single `await groq.chat.completions.create(...)`
(`llmActions.ts` line 91) and no retry loop, so every execution performs
exactly one underlying network call. -/
def completeStructuredRun (content : Option RawContent) :
    Except String StructuredResult × Nat :=
  (completeStructuredGroqChat content, 1)

/-- `prepareInvokingLambda` (`pipeline.ts` lines 41-78): forwards to
`completeStructuredGroqChat` and converts any thrown error into the record
`\x7b error: 'Groq structured completion failed' \x7d`. -/
def prepareInvokingLambda (content : Option RawContent) :
    Except String Json :=
  match completeStructuredGroqChat content with
  | .ok r => .ok r.object
  | .error _ => .error "Groq structured completion failed"

/-- Property types appearing in the schema of `prepareInvokingLambda`
(`pipeline.ts` lines 61-69): plain strings and string enumerations. -/
inductive PropType where
  | str
  | strEnum (vals : List String)

/-- Object schema shape used by `prepareInvokingLambda`: named properties,
a list of required keys, and an `additionalProperties` flag. -/
structure ObjSchema where
  props : List (String × PropType)
  required : List String
  additionalProperties : Bool

/-- Whether a JSON value satisfies one property type. -/
def validateProp : PropType → Json → Bool
  | .str, .str _ => true
  | .strEnum vals, .str s => vals.contains s
  | _, _ => false

/-- Modelled from the spec: JSON-Schema validation of a response object
("the response must validate against a caller-supplied schema"); no
validation code exists under `src/`.  An object validates when every
required key is present, and every field either matches its declared
property type or, when the key is undeclared, is allowed by
`additionalProperties`. -/
def validate (s : ObjSchema) : Json → Bool
  | .obj fields =>
      s.required.all (fun k => (fields.lookup k).isSome) &&
        fields.all (fun kv =>
          match s.props.lookup kv.1 with
          | some t => validateProp t kv.2
          | none => s.additionalProperties)
  | _ => false

/-- The caller-supplied schema of `prepareInvokingLambda`
(`pipeline.ts` lines 61-69): `action` is an enum of `view`/`modify`,
`modifiedInfo` a string, both required, no additional properties. -/
def pipelineSchema : ObjSchema :=
  ⟨[("action", .strEnum ["view", "modify"]), ("modifiedInfo", .str)],
    ["action", "modifiedInfo"], false⟩

/-- Content of the `systemGuard` message of `completeStructuredGroqChat`
(`llmActions.ts` lines 78-87): fixed instruction lines joined with the
serialized caller schema. -/
def systemGuardContent (schemaStr : String) : String :=
  String.intercalate "\n"
    ["You are a service that returns ONLY valid JSON.",
     "You are an instruction rewriter and classifier for cloud console operations. The user will provide a natural language request related to AWS, GCP, or Azure. ### Step 1: Break Down the Request - Parse the user’s request carefully. - Think in set-by-set instructions that a computer in a cloud environment (AWS, GCP, Azure) could execute. - Include all relevant details such as service, resource type, operation, filters, regions, accounts, and expected outputs. - Make assumptions explicit if the user’s request is vague (e.g., if no region is given, assume `us-east-1`). ### Step 2: Classify the Action - If the user request is about creating, updating, deleting, or modifying any resource → classify as `\"MODIFY\"`. - If the user request is about retrieving, viewing, listing, checking status, or describing resources → classify as `\"VIEW\"`. - Only output one of these two values. ### Step 3: Restructure the Prompt - Rewrite the original prompt into a **clearer, more detailed version** of what the user wants. - Expand the intent by clarifying ambiguous parts and making it ready for automation. - Make it precise enough so a cloud system could execute it without confusion. ### Step 4: Output - Return **only JSON**, with no extra text or explanation. - JSON format must be:\x7b \"action\": \"VIEW\" | \"MODIFY\", \"modifiedInfo\": \"...\" \x7d",
     "Do not include code fences, explanations, or extra text.",
     "Your output MUST validate against this JSON Schema:",
     schemaStr]

/-- The `systemGuard` message (`llmActions.ts` lines 78-87). -/
def systemGuard (schemaStr : String) : ChatMessage :=
  ⟨Role.system, systemGuardContent schemaStr⟩

/-- `reqMessages` (`llmActions.ts` line 89):
`[systemGuard, ...messages]` — the guard is prepended and the caller's
messages follow in their original order; the spread copies, so the
caller's array is left untouched. -/
def reqMessages (schemaStr : String) (messages : List ChatMessage) :
    List ChatMessage :=
  systemGuard schemaStr :: messages

/-- Modelled from the spec: classification of a failure as transient or
permanent (§4.2); the RetryPolicy implementation is absent from `src/`. -/
inductive FailureKind where
  | transient
  | permanent
  deriving DecidableEq

/-- Modelled from the spec: a failed operation outcome carrying its
classification and its cause. -/
structure OpFailure where
  kind : FailureKind
  cause : String
  deriving DecidableEq

/-- Modelled from the spec: outcome of driving an operation through
RetryPolicy (§4.2) — success, immediate propagation of a permanent
failure, or a RetryExhaustedError that wraps the last observed cause and
records the attempt count. -/
inductive RetryResult (α : Type) where
  | ok (a : α)
  | permanentFail (cause : String)
  | exhausted (lastCause : String) (attempts : Nat)

/-- Modelled from the spec: the RetryPolicy loop (§4.2), absent from
`src/`.  `k` is the current attempt index, the second argument the number
of retries still allowed.  A permanent failure propagates immediately; a
transient failure with retries remaining is retried; a transient failure
with none remaining becomes `exhausted` with the cause last observed and
the total attempt count `k + 1`. -/
def retryAttempt {α : Type} (op : Nat → Except OpFailure α) :
    Nat → Nat → RetryResult α
  | k, 0 =>
    match op k with
    | .ok a => .ok a
    | .error f =>
      match f.kind with
      | .permanent => .permanentFail f.cause
      | .transient => .exhausted f.cause (k + 1)
  | k, r + 1 =>
    match op k with
    | .ok a => .ok a
    | .error f =>
      match f.kind with
      | .permanent => .permanentFail f.cause
      | .transient => retryAttempt op (k + 1) r

/-- Modelled from the spec: run an operation under RetryPolicy with
`max_retries` retries after the first try (attempt 0 is the first try,
not a retry). -/
def runRetry {α : Type} (op : Nat → Except OpFailure α)
    (maxRetries : Nat) : RetryResult α :=
  retryAttempt op 0 maxRetries

/-- Modelled from the spec: backoff configuration — `retry_base_delay`
and the configurable maximum delay (§4.2). -/
structure BackoffConfig where
  base : Nat
  maxDelay : Nat

/-- Modelled from the spec: the backoff delay before the retry after
attempt `k` — `retry_base_delay * 2^attempt` plus bounded jitter, capped
at the configured maximum (§4.2); absent from `src/`. -/
def backoffDelay (cfg : BackoffConfig) (jitter : Nat → Nat) (k : Nat) :
    Nat :=
  min (cfg.base * 2 ^ k + jitter k) cfg.maxDelay

/-- Modelled from the spec: a ClientInstance as the Manager sees it (§3) —
a closed flag plus whether releasing the underlying connection resource
would fail; the Manager implementation is absent from `src/`. -/
structure Instance where
  closed : Bool
  closeFails : Bool
  deriving DecidableEq

/-- Modelled from the spec: `close` on one instance — "a second close on
an already-closed instance is a no-op, never an error" (§3); releasing the
resource happens exactly once and may fail. -/
def closeInstance (i : Instance) : Instance × Option String :=
  if i.closed then (i, none)
  else ({ i with closed := true },
        if i.closeFails then some "close failed" else none)

/-- Modelled from the spec: the Manager's registry of live client
instances (§4.5). -/
structure Manager where
  registry : List (String × Instance)

/-- Modelled from the spec: `close_all` (§4.5) — iterates the registry,
closes every instance tolerating already-closed ones, always clears the
registry, and re-raises only the first remembered error after all
instances have been attempted. -/
def close_all (m : Manager) : Manager × Option String :=
  (⟨[]⟩, ((m.registry.map (fun q => closeInstance q.2)).filterMap
            (fun r => r.2)).head?)

/-- Modelled from the spec: per-provider state the Manager consults (§4.5)
— the optional credential, whether client construction succeeds, and the
outcome of the lightweight connection-test call. -/
structure ProviderState where
  credential : Option String
  constructOk : Bool
  probe : Except String Bool

/-- Modelled from the spec: initialization of a single provider —
a provider whose credential is absent is skipped (recorded, not fatal),
otherwise construction is attempted (§4.5). -/
def initProvider (p : ProviderState) : Bool :=
  p.credential.isSome && p.constructOk

/-- Modelled from the spec: `initialize_all` (§4.5) — attempts every
configured provider independently and returns a per-provider success map. -/
def initAll (ps : List (String × ProviderState)) : List (String × Bool) :=
  ps.map (fun q => (q.1, initProvider q.2))

/-- Modelled from the spec: one lightweight connection-test call —
"translating any error into `false` rather than propagating" (§4.5). -/
def testConnection (p : ProviderState) : Bool :=
  match p.probe with
  | .ok b => b
  | .error _ => false

/-- Modelled from the spec: `test_connections` (§4.5) — one lightweight
call per active (successfully initialized) instance, returning a
per-provider boolean map. -/
def testConnections (ps : List (String × ProviderState)) :
    List (String × Bool) :=
  (ps.filter (fun q => initProvider q.2)).map
    (fun q => (q.1, testConnection q.2))

/-- Modelled from the spec: the rate-limiter configuration —
`rate_limit_calls` and `rate_limit_period` (§3, §4.1); the RateLimiter
implementation is absent from `src/`. -/
structure RLConfig where
  calls : Nat
  period : Nat

/-- Whether a granted acquisition at time `x` lies within the trailing
`period`-second window ending at instant `t`. -/
def inWindow (cfg : RLConfig) (t x : Nat) : Bool :=
  x ≤ t && t < x + cfg.period

/-- Number of granted acquisitions that fall within the trailing window
ending at instant `t`. -/
def windowCount (cfg : RLConfig) (t : Nat) (grants : List Nat) : Nat :=
  (grants.filter (inWindow cfg t)).length

/-- Modelled from the spec: the RateWindow "pruned to the trailing
`rate_limit_period`" (§3) — timestamps still inside the window at `now`. -/
def pruneWindow (cfg : RLConfig) (now : Nat) (ts : List Nat) : List Nat :=
  ts.filter (fun x => now < x + cfg.period)

/-- Modelled from the spec: `RateLimiter.acquire()` (§4.1), absent from
`src/`.  The state `ts` holds the pruned window newest-first.  If a slot
is free under the ceiling the call is granted at `now` and the timestamp
recorded; otherwise the caller suspends for the minimum time needed until
the oldest timestamp exits the window (`oldest + period`), at which point
the slot is granted.  Returns the grant time and the new window. -/
def acquire (cfg : RLConfig) (ts : List Nat) (now : Nat) : Nat × List Nat :=
  if (pruneWindow cfg now ts).length < cfg.calls then
    (now, now :: pruneWindow cfg now ts)
  else
    match (pruneWindow cfg now ts).getLast? with
    | some oldest =>
        (oldest + cfg.period,
         (oldest + cfg.period) :: pruneWindow cfg (oldest + cfg.period) ts)
    | none => (now, now :: pruneWindow cfg now ts)

/-- Modelled from the spec: a sequential run of blocking acquisitions
(§5: calls are blocking, so a caller's next request is not before the
previous grant returned).  `ts` is the limiter state, `hist` the
newest-first list of all grants ever made, `lastG` the latest grant time.
Returns the full grant history. -/
def acquireRun (cfg : RLConfig) :
    List Nat → List Nat → List Nat → Nat → List Nat
  | [], _, hist, _ => hist
  | r :: rs, ts, hist, lastG =>
      let now := max r lastG
      let p := acquire cfg ts now
      acquireRun cfg rs p.2 (p.1 :: hist) p.1

/-- Grant times produced by serving the given request times in order,
starting from an empty window. -/
def runGrants (cfg : RLConfig) (reqs : List Nat) : List Nat :=
  acquireRun cfg reqs [] [] 0

/-- Abstract steps a concrete outbound call path can perform. -/
inductive CallStep where
  | rlAcquire
  | netCall
  deriving DecidableEq

/-- Steps performed by `streamGroqChat` (`llmActions.ts` lines 15-40) on
its outbound path: it invokes `groq.chat.completions.create` directly;
no rate limiter exists anywhere under `src/`, so no acquisition step
precedes the network call. -/
def streamGroqChatSteps : List CallStep :=
  [CallStep.netCall]

/-- Network-call times of a sequence of `streamGroqChat` invocations:
with no rate limiter on the path, each invocation issues its network call
at its own invocation time, unconditionally. -/
def streamGroqChatCallTimes (invocations : List Nat) : List Nat :=
  invocations

/-! Helper lemmas. -/

/-- Joining a list of empty strings yields the empty string. -/
theorem join_empty_of_all_empty (l : List String) (h : ∀ s ∈ l, s = "") :
    String.join l = "" := by
  induction l with
  | nil => rfl
  | cons a t ih =>
      have ha : a = "" := h a (List.mem_cons_self _ _)
      have ht : ∀ s ∈ t, s = "" := fun s hs => h s (List.mem_cons_of_mem _ hs)
      simp [String.join] at ih ⊢
      simp [ha, ht, ih ht]

/-! Claim theorems. -/

/-- C9: `completeGroqChat` is total over the response shape — an absent
`choices` yields `\x7b content: "" \x7d`, a choice with a missing message
or a null content contributes the empty string, and a response all of
whose choices lack content yields `\x7b content: "" \x7d`. -/
theorem completeGroqChat_shape_total :
    completeGroqChat (.ok ⟨none⟩) = .ok ⟨""⟩ ∧
    (∀ c : GroqChoice, c.message = none → choiceContent c = "") ∧
    (∀ (c : GroqChoice) (m : GroqMessage),
        c.message = some m → m.content = none → choiceContent c = "") ∧
    (∀ cs : List GroqChoice, (∀ c ∈ cs, choiceContent c = "") →
        completeGroqChat (.ok ⟨some cs⟩) = .ok ⟨""⟩) := by
  refine ⟨rfl, ?_, ?_, ?_⟩
  · intro c h
    simp [choiceContent, h]
  · intro c m hm hc
    simp [choiceContent, hm, hc]
  · intro cs h
    simp only [completeGroqChat, extractContent]
    rw [join_empty_of_all_empty (cs.map choiceContent)]
    intro s hs
    obtain ⟨c, hc, rfl⟩ := List.mem_map.mp hs
    exact h c hc

/-- Witness for C9 at a concrete degenerate response: one choice with no
message, one whose message has null content. -/
theorem completeGroqChat_shape_total_witness :
    completeGroqChat (.ok ⟨some [⟨none⟩, ⟨some ⟨none⟩⟩]⟩) = .ok ⟨""⟩ :=
  completeGroqChat_shape_total.2.2.2 [⟨none⟩, ⟨some ⟨none⟩⟩] (by decide)

/-- C10: `invokeLambda` never propagates an exception — a successful send
yields `\x7b success: true, message \x7d` and any send failure yields
`\x7b success: false, error \x7d`. -/
theorem invokeLambda_no_throw (q : String) (o : Except String Unit) :
    (∀ u, o = .ok u → invokeLambda q o =
      ⟨true, some "Main Processing started", none⟩) ∧
    (∀ e, o = .error e → invokeLambda q o =
      ⟨false, none, some "Failed to start main processing"⟩) := by
  constructor
  · rintro u rfl; rfl
  · rintro e rfl; rfl

/-- Witness for C10 at a concrete query, on both send outcomes. -/
theorem invokeLambda_no_throw_witness :
    invokeLambda "list my ec2 instances" (.ok ()) =
      ⟨true, some "Main Processing started", none⟩ ∧
    invokeLambda "list my ec2 instances" (.error "AccessDenied") =
      ⟨false, none, some "Failed to start main processing"⟩ :=
  ⟨(invokeLambda_no_throw "list my ec2 instances" (.ok ())).1 () rfl,
   (invokeLambda_no_throw "list my ec2 instances"
      (.error "AccessDenied")).2 "AccessDenied" rfl⟩

/-- C6: the outbound message sequence of `completeStructuredGroqChat`
keeps the caller's messages in their original relative order immediately
after the prepended system guard (so the caller's list is embedded
unchanged), and every message role is one of system, user, assistant. -/
theorem reqMessages_order_roles (s : String) (msgs : List ChatMessage) :
    (reqMessages s msgs).tail = msgs ∧
    (reqMessages s msgs).head? = some (systemGuard s) ∧
    ∀ m ∈ reqMessages s msgs,
      m.role = Role.system ∨ m.role = Role.user ∨ m.role = Role.assistant := by
  refine ⟨rfl, rfl, ?_⟩
  intro m _
  cases m.role
  · exact Or.inl rfl
  · exact Or.inr (Or.inl rfl)
  · exact Or.inr (Or.inr rfl)

/-- Witness for C6 at a concrete caller message list. -/
theorem reqMessages_order_roles_witness :
    (reqMessages "schema" [⟨Role.user, "hello"⟩]).tail =
      [⟨Role.user, "hello"⟩] ∧
    ((⟨Role.user, "hello"⟩ : ChatMessage).role = Role.system ∨
      (⟨Role.user, "hello"⟩ : ChatMessage).role = Role.user ∨
      (⟨Role.user, "hello"⟩ : ChatMessage).role = Role.assistant) :=
  ⟨(reqMessages_order_roles "schema" [⟨Role.user, "hello"⟩]).1,
   (reqMessages_order_roles "schema" [⟨Role.user, "hello"⟩]).2.2
     ⟨Role.user, "hello"⟩ (List.mem_cons_of_mem _ (List.mem_cons_self _ _))⟩

/-- Exhaustion unfolding for the modelled RetryPolicy: starting at attempt
index `k` with `r` retries left against an always-transient operation ends
exhausted with the cause observed on the final attempt `k + r` and the
total attempt count `k + r + 1`. -/
theorem retryAttempt_exhausts {α : Type} (op : Nat → Except OpFailure α)
    (e : Nat → String) (htrans : ∀ i, op i = .error ⟨.transient, e i⟩)
    (r k : Nat) :
    retryAttempt op k r = .exhausted (e (k + r)) (k + r + 1) := by
  induction r generalizing k with
  | zero => simp [retryAttempt, htrans k]
  | succ r ih =>
      simp only [retryAttempt, htrans k]
      rw [ih (k + 1)]
      have h : k + 1 + r = k + (r + 1) := by omega
      rw [h]

/-- C2 (corrected, spec-modelled): the RetryPolicy of §4.2, absent from
`src/`, performs exactly `R + 1` attempts on an operation that always
fails transiently and then reports exhaustion wrapping the last observed
cause and the attempt count, while a permanent failure on attempt 0
propagates immediately with zero retries.  The concrete call path in
`src/` does not retry at all (see `completeGroqChat_single_attempt`). -/
theorem retryPolicy_exhaustion_spec {α : Type} (R : Nat)
    (op : Nat → Except OpFailure α) (e : Nat → String)
    (htrans : ∀ i, op i = .error ⟨.transient, e i⟩)
    (op2 : Nat → Except OpFailure α) (c : String)
    (hperm : op2 0 = .error ⟨.permanent, c⟩) :
    runRetry op R = .exhausted (e R) (R + 1) ∧
    runRetry op2 R = .permanentFail c := by
  constructor
  · have := retryAttempt_exhausts op e htrans R 0
    simpa [runRetry] using this
  · cases R with
    | zero => simp [runRetry, retryAttempt, hperm]
    | succ R => simp [runRetry, retryAttempt, hperm]

/-- Witness for C2 with `max_retries = 2`: three attempts then
exhaustion carrying the last cause, and immediate propagation of a
permanent failure. -/
theorem retryPolicy_exhaustion_spec_witness :
    runRetry (α := Unit) (fun _ => .error ⟨.transient, "timeout"⟩) 2 =
      .exhausted "timeout" 3 ∧
    runRetry (α := Unit) (fun _ => .error ⟨.permanent, "bad request"⟩) 2 =
      .permanentFail "bad request" :=
  retryPolicy_exhaustion_spec 2 (fun _ => .error ⟨.transient, "timeout"⟩)
    (fun _ => "timeout") (fun _ => rfl)
    (fun _ => .error ⟨.permanent, "bad request"⟩) "bad request" rfl

/-- Counterexample for C2 as stated: the concrete Groq call path
`completeGroqChat` cited by the claim performs exactly one network
attempt regardless of any configured `max_retries` (here `R = 2`, so the
claim demands `3` attempts and a RetryExhaustedError recording them), and
wraps the transient failure in a plain generic error instead. -/
theorem completeGroqChat_single_attempt :
    completeGroqChatAttemptRun (fun _ => .error (some "timeout")) =
      (.error "Groq completion failed: timeout", 1) ∧
    (1 : Nat) ≠ 2 + 1 :=
  ⟨rfl, by decide⟩

/-- Counterexample for C3 as stated: the raw output `\x7b\x7d` is valid
JSON but violates the caller's schema from `pipeline.ts` (both required
keys missing), yet `completeStructuredGroqChat` returns it to the caller
as a success instead of raising a ProviderResponseError. -/
theorem structured_schema_violation_returned :
    completeStructuredGroqChat
        (some (.wellFormed "\x7b\x7d" (Json.obj []))) =
      .ok ⟨"\x7b\x7d", Json.obj []⟩ ∧
    validate pipelineSchema (Json.obj []) = false :=
  ⟨rfl, rfl⟩

/-- C3 (corrected): `completeStructuredGroqChat` returns exactly the JSON
parse of the raw content without validating it — even an object that
fails the caller's schema is returned — while content that fails to parse
(including the absent-content default `""`) raises an error. -/
theorem completeStructuredGroqChat_parse_only (raw : String) (j : Json)
    (hv : validate pipelineSchema j = false) :
    completeStructuredGroqChat (some (.wellFormed raw j)) = .ok ⟨raw, j⟩ ∧
    completeStructuredGroqChat (some (.malformed raw)) =
      .error ("Model did not return valid JSON. Raw output: " ++ raw) ∧
    completeStructuredGroqChat none =
      .error ("Model did not return valid JSON. Raw output: " ++ "") :=
  ⟨rfl, rfl, rfl⟩

/-- Witness for C3 at the concrete schema-violating parse `\x7b\x7d`. -/
theorem completeStructuredGroqChat_parse_only_witness :
    completeStructuredGroqChat
        (some (.wellFormed "\x7b\x7d" (Json.obj []))) =
      .ok ⟨"\x7b\x7d", Json.obj []⟩ ∧
    completeStructuredGroqChat (some (.malformed "\x7b\x7d")) =
      .error ("Model did not return valid JSON. Raw output: " ++ "\x7b\x7d") ∧
    completeStructuredGroqChat none =
      .error ("Model did not return valid JSON. Raw output: " ++ "") :=
  completeStructuredGroqChat_parse_only "\x7b\x7d" (Json.obj []) rfl

/-- Counterexample for C4 as stated: a response that parses but violates
the caller's schema raises no error at all — the run returns success
after its single network call — contradicting the claim that such a
failure raises after exactly one call. -/
theorem structured_schema_violation_no_error :
    (completeStructuredRun
        (some (.wellFormed "\x7b\x7d" (Json.obj [])))).1 =
      .ok ⟨"\x7b\x7d", Json.obj []⟩ ∧
    validate pipelineSchema (Json.obj []) = false ∧
    (completeStructuredRun
        (some (.wellFormed "\x7b\x7d" (Json.obj [])))).2 = 1 :=
  ⟨rfl, rfl, rfl⟩

/-- C4 (corrected): every execution of `completeStructuredGroqChat`
performs exactly one underlying network call, and a response that fails
to parse raises its error after that single call — it is never retried;
schema violations, however, raise nothing (see
`structured_schema_violation_no_error`). -/
theorem completeStructuredGroqChat_single_call
    (content : Option RawContent) :
    (completeStructuredRun content).2 = 1 ∧
    (∀ raw, content = some (.malformed raw) →
      (completeStructuredRun content).1 =
        .error ("Model did not return valid JSON. Raw output: " ++ raw)) := by
  constructor
  · rfl
  · rintro raw rfl; rfl

/-- Witness for C4 at a concrete malformed response. -/
theorem completeStructuredGroqChat_single_call_witness :
    (completeStructuredRun (some (.malformed "not json"))).2 = 1 ∧
    (completeStructuredRun (some (.malformed "not json"))).1 =
      .error ("Model did not return valid JSON. Raw output: " ++ "not json") :=
  ⟨(completeStructuredGroqChat_single_call (some (.malformed "not json"))).1,
   (completeStructuredGroqChat_single_call (some (.malformed "not json"))).2
     "not json" rfl⟩

/-- C5 (spec-modelled): with jitter bounded by the base delay, the backoff
delay before the retry after attempt `k` is non-decreasing in `k`, never
exceeds the configured maximum, and equals
`retry_base_delay * 2^k + jitter` whenever that value is under the cap. -/
theorem backoffDelay_monotone_capped (cfg : BackoffConfig)
    (jitter : Nat → Nat) (k : Nat) (hj : ∀ i, jitter i ≤ cfg.base) :
    backoffDelay cfg jitter k ≤ backoffDelay cfg jitter (k + 1) ∧
    backoffDelay cfg jitter k ≤ cfg.maxDelay ∧
    (cfg.base * 2 ^ k + jitter k ≤ cfg.maxDelay →
      backoffDelay cfg jitter k = cfg.base * 2 ^ k + jitter k) := by
  refine ⟨?_, min_le_right _ _, fun h => min_eq_left h⟩
  apply min_le_min _ le_rfl
  have h1 : cfg.base ≤ cfg.base * 2 ^ k :=
    Nat.le_mul_of_pos_right _ (Nat.pos_pow_of_pos k (by omega))
  have h2 : cfg.base * 2 ^ (k + 1) = cfg.base * 2 ^ k + cfg.base * 2 ^ k := by
    ring
  calc cfg.base * 2 ^ k + jitter k
      ≤ cfg.base * 2 ^ k + cfg.base := Nat.add_le_add_left (hj k) _
    _ ≤ cfg.base * 2 ^ k + cfg.base * 2 ^ k := Nat.add_le_add_left h1 _
    _ = cfg.base * 2 ^ (k + 1) := h2.symm
    _ ≤ cfg.base * 2 ^ (k + 1) + jitter (k + 1) := Nat.le_add_right _ _

/-- Witness for C5 at `retry_base_delay = 1`, maximum `100`, zero jitter,
attempt `3`. -/
theorem backoffDelay_monotone_capped_witness :
    backoffDelay ⟨1, 100⟩ (fun _ => 0) 3 ≤
      backoffDelay ⟨1, 100⟩ (fun _ => 0) 4 ∧
    backoffDelay ⟨1, 100⟩ (fun _ => 0) 3 ≤ 100 ∧
    (1 * 2 ^ 3 + 0 ≤ 100 →
      backoffDelay ⟨1, 100⟩ (fun _ => 0) 3 = 1 * 2 ^ 3 + 0) :=
  backoffDelay_monotone_capped ⟨1, 100⟩ (fun _ => 0) 3 (fun _ => Nat.zero_le _)

/-- C7 (spec-modelled): `close_all` leaves the registry empty, a second
`close_all` raises no error and leaves it empty again, and `close` on an
already-closed instance is a no-op that reports no error. -/
theorem close_all_idempotent (m : Manager) (i : Instance)
    (hi : i.closed = true) :
    (close_all m).1.registry = [] ∧
    (close_all (close_all m).1).2 = none ∧
    (close_all (close_all m).1).1.registry = [] ∧
    closeInstance i = (i, none) := by
  refine ⟨rfl, rfl, rfl, ?_⟩
  simp [closeInstance, hi]

/-- Witness for C7: a registry holding one open instance whose close even
fails, and one already-closed instance. -/
theorem close_all_idempotent_witness :
    (close_all ⟨[("groq", ⟨false, true⟩)]⟩).1.registry = ([] : List (String × Instance)) ∧
    (close_all (close_all ⟨[("groq", ⟨false, true⟩)]⟩).1).2 = none ∧
    (close_all (close_all ⟨[("groq", ⟨false, true⟩)]⟩).1).1.registry = ([] : List (String × Instance)) ∧
    closeInstance ⟨true, true⟩ = (⟨true, true⟩, none) :=
  close_all_idempotent ⟨[("groq", ⟨false, true⟩)]⟩ ⟨true, true⟩ rfl

/-- C8 (spec-modelled): `initialize_all` and `test_connections` are
per-provider maps — the entry a provider contributes is a function of its
own state alone, unaffected by the providers before or after it — and a
probe error is translated into `false` rather than propagated. -/
theorem manager_per_provider_independence
    (pre post : List (String × ProviderState)) (pid : String)
    (p : ProviderState) (e : String) (hp : p.probe = .error e) :
    initAll (pre ++ (pid, p) :: post) =
      initAll pre ++ (pid, initProvider p) :: initAll post ∧
    testConnections (pre ++ (pid, p) :: post) =
      testConnections pre ++
        (if initProvider p then [(pid, testConnection p)] else []) ++
        testConnections post ∧
    testConnection p = false := by
  refine ⟨by simp [initAll], ?_, by simp [testConnection, hp]⟩
  simp only [testConnections, List.filter_append, List.filter_cons,
    List.map_append]
  by_cases h : initProvider p = true <;> simp [h]

/-- Witness for C8: a failing provider surrounded by two healthy ones
neither aborts them nor escapes `test_connections`. -/
theorem manager_per_provider_independence_witness :
    initAll ([("groq", ⟨some "k1", true, .ok true⟩)] ++
        ("azure", ⟨some "k2", true, .error "unreachable"⟩) ::
        [("sonar", ⟨some "k3", true, .ok true⟩)]) =
      initAll [("groq", ⟨some "k1", true, .ok true⟩)] ++
        ("azure", initProvider ⟨some "k2", true, .error "unreachable"⟩) ::
        initAll [("sonar", ⟨some "k3", true, .ok true⟩)] ∧
    testConnections ([("groq", ⟨some "k1", true, .ok true⟩)] ++
        ("azure", ⟨some "k2", true, .error "unreachable"⟩) ::
        [("sonar", ⟨some "k3", true, .ok true⟩)]) =
      testConnections [("groq", ⟨some "k1", true, .ok true⟩)] ++
        (if initProvider ⟨some "k2", true, .error "unreachable"⟩ then
          [("azure", testConnection ⟨some "k2", true, .error "unreachable"⟩)]
         else []) ++
        testConnections [("sonar", ⟨some "k3", true, .ok true⟩)] ∧
    testConnection ⟨some "k2", true, .error "unreachable"⟩ = false :=
  manager_per_provider_independence
    [("groq", ⟨some "k1", true, .ok true⟩)]
    [("sonar", ⟨some "k3", true, .ok true⟩)]
    "azure" ⟨some "k2", true, .error "unreachable"⟩ "unreachable" rfl

/-- Filtering removes at least one element when some member fails the
predicate. -/
theorem length_filter_lt_of_mem_not {α : Type} {l : List α} {a : α}
    {p : α → Bool} (ha : a ∈ l) (hpa : p a = false) :
    (l.filter p).length < l.length := by
  induction l with
  | nil => cases ha
  | cons b t ih =>
      rcases List.mem_cons.mp ha with rfl | hat
      · rw [List.filter_cons, hpa]
        simp only [Bool.false_eq_true, if_false, List.length_cons]
        exact Nat.lt_succ_of_le (List.length_filter_le _ _)
      · rw [List.filter_cons]
        by_cases hb : p b = true
        · simp only [hb, if_true, List.length_cons]
          exact Nat.succ_lt_succ (ih hat)
        · simp only [Bool.not_eq_true] at hb
          simp only [hb, Bool.false_eq_true, if_false, List.length_cons]
          exact Nat.lt_succ_of_lt (ih hat)

/-- A pointwise implication between predicates bounds filtered lengths. -/
theorem length_filter_le_of_imp {α : Type} {l : List α} {p q : α → Bool}
    (h : ∀ x ∈ l, p x = true → q x = true) :
    (l.filter p).length ≤ (l.filter q).length := by
  induction l with
  | nil => exact le_rfl
  | cons b t ih =>
      have ht : ∀ x ∈ t, p x = true → q x = true :=
        fun x hx => h x (List.mem_cons_of_mem _ hx)
      rw [List.filter_cons, List.filter_cons]
      by_cases hb : p b = true
      · have hqb := h b (List.mem_cons_self _ _) hb
        simp only [hb, hqb, if_true, List.length_cons]
        exact Nat.succ_le_succ (ih ht)
      · simp only [Bool.not_eq_true] at hb
        simp only [hb, Bool.false_eq_true, if_false]
        by_cases hqb : q b = true
        · simp only [hqb, if_true, List.length_cons]
          exact Nat.le_succ_of_le (ih ht)
        · simp only [Bool.not_eq_true] at hqb
          simp only [hqb, Bool.false_eq_true, if_false]
          exact ih ht

/-- Counting a window over a longer grant history, one grant at a time. -/
theorem windowCount_cons (cfg : RLConfig) (t g : Nat) (hist : List Nat) :
    windowCount cfg t (g :: hist) =
      windowCount cfg t hist + (if inWindow cfg t g then 1 else 0) := by
  rw [windowCount, windowCount, List.filter_cons]
  by_cases h : inWindow cfg t g = true <;> simp [h]

/-- Pruning at a later instant refines pruning at an earlier one. -/
theorem pruneWindow_pruneWindow (cfg : RLConfig) {t1 t2 : Nat}
    (h : t1 ≤ t2) (l : List Nat) :
    pruneWindow cfg t2 (pruneWindow cfg t1 l) = pruneWindow cfg t2 l := by
  rw [pruneWindow, pruneWindow, pruneWindow, List.filter_filter]
  apply List.filter_congr
  intro x _
  by_cases h2 : t2 < x + cfg.period
  · have h1 : t1 < x + cfg.period := lt_of_le_of_lt h h2
    simp [h1, h2]
  · simp [h2]

/-- When every grant lies in the past, the window count at the current
instant is the length of the pruned window. -/
theorem windowCount_eq_prune_length (cfg : RLConfig) {now : Nat}
    {hist : List Nat} (h : ∀ x ∈ hist, x ≤ now) :
    windowCount cfg now hist = (pruneWindow cfg now hist).length := by
  rw [windowCount, pruneWindow]
  congr 1
  apply List.filter_congr
  intro x hx
  have hxn := h x hx
  simp [inWindow, hxn]

/-- Any window ending at or after `now` holds at most as many grants as
the window pruned at `now`. -/
theorem windowCount_le_prune_length (cfg : RLConfig) {now t : Nat}
    (h : now ≤ t) (hist : List Nat) :
    windowCount cfg t hist ≤ (pruneWindow cfg now hist).length := by
  rw [windowCount, pruneWindow]
  apply length_filter_le_of_imp
  intro x _ hx
  simp only [inWindow, Bool.and_eq_true, decide_eq_true_eq] at hx
  simp only [decide_eq_true_eq]
  omega

/-- One `acquire` step preserves the limiter's invariants: the grant is
not earlier than the previous one, the new state is the new history
pruned at the grant time, and no trailing window ever holds more than
`rate_limit_calls` grants. -/
theorem acquire_preserves (cfg : RLConfig) (hN : 0 < cfg.calls)
    (hP : 0 < cfg.period) (hist : List Nat) (lastG now : Nat)
    (hle : ∀ x ∈ hist, x ≤ lastG)
    (hwc : ∀ t, windowCount cfg t hist ≤ cfg.calls)
    (hnow : lastG ≤ now) :
    lastG ≤ (acquire cfg (pruneWindow cfg lastG hist) now).1 ∧
    (acquire cfg (pruneWindow cfg lastG hist) now).2 =
      pruneWindow cfg (acquire cfg (pruneWindow cfg lastG hist) now).1
        ((acquire cfg (pruneWindow cfg lastG hist) now).1 :: hist) ∧
    (∀ t, windowCount cfg t
        ((acquire cfg (pruneWindow cfg lastG hist) now).1 :: hist) ≤
      cfg.calls) := by
  have hww := pruneWindow_pruneWindow cfg hnow hist
  by_cases hfull : (pruneWindow cfg now hist).length < cfg.calls
  · have hacq : acquire cfg (pruneWindow cfg lastG hist) now =
        (now, now :: pruneWindow cfg now hist) := by
      simp only [acquire, hww, if_pos hfull]
    rw [hacq]
    refine ⟨hnow, ?_, ?_⟩
    · show now :: pruneWindow cfg now hist =
        pruneWindow cfg now (now :: hist)
      rw [pruneWindow, pruneWindow, List.filter_cons]
      have hself : now < now + cfg.period := by omega
      simp [hself]
    · intro t
      show windowCount cfg t (now :: hist) ≤ cfg.calls
      rw [windowCount_cons]
      by_cases hg : inWindow cfg t now = true
      · have hnt : now ≤ t := by
          simp only [inWindow, Bool.and_eq_true, decide_eq_true_eq] at hg
          exact hg.1
        have hlt := windowCount_le_prune_length cfg hnt hist
        simp only [hg, if_true]
        omega
      · simp only [Bool.not_eq_true] at hg
        simp only [hg, Bool.false_eq_true, if_false]
        have := hwc t
        omega
  · have hleN : ∀ x ∈ hist, x ≤ now := fun x hx => le_trans (hle x hx) hnow
    have hlenN : (pruneWindow cfg now hist).length = cfg.calls := by
      have h1 := hwc now
      have h2 := windowCount_eq_prune_length cfg hleN
      omega
    have hne : pruneWindow cfg now hist ≠ [] := by
      intro hc
      rw [hc] at hlenN
      simp at hlenN
      omega
    have holdest : (pruneWindow cfg now hist).getLast? =
        some ((pruneWindow cfg now hist).getLast hne) :=
      List.getLast?_eq_getLast _ hne
    set oldest := (pruneWindow cfg now hist).getLast hne with holddef
    have hmem : oldest ∈ pruneWindow cfg now hist := List.getLast_mem hne
    have hmemh : oldest ∈ hist := List.mem_of_mem_filter hmem
    have hoin : now < oldest + cfg.period := by
      have := List.of_mem_filter hmem
      simpa using this
    have hlg : lastG ≤ oldest + cfg.period := by omega
    have hacq : acquire cfg (pruneWindow cfg lastG hist) now =
        (oldest + cfg.period,
         (oldest + cfg.period) ::
           pruneWindow cfg (oldest + cfg.period) hist) := by
      simp only [acquire, hww, if_neg hfull, holdest,
        pruneWindow_pruneWindow cfg hlg hist]
    rw [hacq]
    refine ⟨by omega, ?_, ?_⟩
    · show (oldest + cfg.period) ::
          pruneWindow cfg (oldest + cfg.period) hist =
        pruneWindow cfg (oldest + cfg.period)
          ((oldest + cfg.period) :: hist)
      rw [pruneWindow, pruneWindow, List.filter_cons]
      have hself : oldest + cfg.period < oldest + cfg.period + cfg.period := by
        omega
      simp [hself]
    · intro t
      show windowCount cfg t ((oldest + cfg.period) :: hist) ≤ cfg.calls
      rw [windowCount_cons]
      by_cases hg : inWindow cfg t (oldest + cfg.period) = true
      · simp only [hg, if_true]
        simp only [inWindow, Bool.and_eq_true, decide_eq_true_eq] at hg
        have hchain : windowCount cfg t hist ≤
            ((pruneWindow cfg now hist).filter
              (fun x => decide (oldest < x))).length := by
          rw [pruneWindow, List.filter_filter, windowCount]
          apply length_filter_le_of_imp
          intro x _ hx
          simp only [inWindow, Bool.and_eq_true, decide_eq_true_eq] at hx
          simp only [Bool.and_eq_true, decide_eq_true_eq]
          omega
        have hdrop : ((pruneWindow cfg now hist).filter
              (fun x => decide (oldest < x))).length <
            (pruneWindow cfg now hist).length :=
          length_filter_lt_of_mem_not hmem
            (by show decide (oldest < oldest) = false; simp)
        omega
      · simp only [Bool.not_eq_true] at hg
        simp only [hg, Bool.false_eq_true, if_false]
        have := hwc t
        omega

/-- The window-count invariant holds all along a sequential run of
blocking acquisitions. -/
theorem acquireRun_invariant (cfg : RLConfig) (hN : 0 < cfg.calls)
    (hP : 0 < cfg.period) :
    ∀ (reqs hist : List Nat) (lastG : Nat),
      (∀ x ∈ hist, x ≤ lastG) →
      (∀ t, windowCount cfg t hist ≤ cfg.calls) →
      ∀ t, windowCount cfg t
          (acquireRun cfg reqs (pruneWindow cfg lastG hist) hist lastG) ≤
        cfg.calls
  | [], hist, lastG, _, hwc, t => by
      simpa [acquireRun] using hwc t
  | r :: rs, hist, lastG, hle, hwc, t => by
      have hnow : lastG ≤ max r lastG := le_max_right _ _
      obtain ⟨h1, h2, h3⟩ :=
        acquire_preserves cfg hN hP hist lastG (max r lastG) hle hwc hnow
      have hle2 : ∀ x ∈
          (acquire cfg (pruneWindow cfg lastG hist) (max r lastG)).1 :: hist,
          x ≤ (acquire cfg (pruneWindow cfg lastG hist) (max r lastG)).1 := by
        intro x hx
        rcases List.mem_cons.mp hx with rfl | hx
        · exact le_rfl
        · exact le_trans (hle x hx) h1
      have ih := acquireRun_invariant cfg hN hP rs
        ((acquire cfg (pruneWindow cfg lastG hist) (max r lastG)).1 :: hist)
        ((acquire cfg (pruneWindow cfg lastG hist) (max r lastG)).1)
        hle2 h3 t
      rw [acquireRun]
      rw [← h2] at ih
      exact ih

/-- C1 (corrected, spec-modelled): the sliding-window RateLimiter of
§4.1, absent from `src/`, never lets more than `rate_limit_calls` granted
acquisitions fall within any trailing `rate_limit_period` window, over
any sequential run of blocking acquire calls.  The concrete outbound
call paths in `src/` do not pass through any rate limiter (see
`streamGroqChat_no_rate_limiter`). -/
theorem rateLimiter_window_invariant (cfg : RLConfig) (hN : 0 < cfg.calls)
    (hP : 0 < cfg.period) (reqs : List Nat) (t : Nat) :
    windowCount cfg t (runGrants cfg reqs) ≤ cfg.calls := by
  have h := acquireRun_invariant cfg hN hP reqs [] 0
    (by intro x hx; cases hx)
    (fun s => by simp [windowCount])
    t
  simpa [runGrants, pruneWindow] using h

/-- Witness for C1 at `rate_limit_calls = 2`, `rate_limit_period = 5`,
five immediate requests, window instant `3`. -/
theorem rateLimiter_window_invariant_witness :
    windowCount ⟨2, 5⟩ 3 (runGrants ⟨2, 5⟩ [0, 0, 0, 0, 0]) ≤ 2 :=
  rateLimiter_window_invariant ⟨2, 5⟩ (by decide) (by decide)
    [0, 0, 0, 0, 0] 3

/-- Counterexample for C1 as stated: the concrete outbound call path
`streamGroqChat` performs its network call with no
`RateLimiter.acquire()` step, and two invocations at the same instant
put two network calls inside one trailing window even under a configured
ceiling of one call per ten seconds. -/
theorem streamGroqChat_no_rate_limiter :
    CallStep.netCall ∈ streamGroqChatSteps ∧
    CallStep.rlAcquire ∉ streamGroqChatSteps ∧
    1 < windowCount ⟨1, 10⟩ 0 (streamGroqChatCallTimes [0, 0]) :=
  ⟨by decide, by decide, by decide⟩

end OpsForge
